import Mathlib

/-!
Shallow embedding of src/example/app/lib/ti.speech.js (module ti.speech).

The module is a thin session wrapper around native speech recognition.  Its
observable state is four module-level mutable references (audioEngine,
request, recognitionTask, speechRecognizer) plus the tapInstalled flag kept
on the input node of the engine.  Native outcomes that the JS code merely
observes (whether request allocation succeeds, whether the engine has an
input node, whether the engine starts) are threaded in through an Env
record.  Native calls performed by the code (task cancel, tap removal and
install, engine stop, endAudio, log lines) are recorded in an action trace,
and the asynchronous result handlers are embedded as pure functions from
the handler inputs (result, error, task state at callback time) to the new
state, the emitted progress events and the performed actions.

JavaScript truthiness matters in a few places (isAvailable returns the
short-circuit value of an and-expression; an absent type or url argument is
falsy), so the embedding models the distinction between undefined and the
booleans where the code can observe it.
-/

namespace TiSpeech

/-- JavaScript value as observable from this module: either undefined or a
boolean. The expression a and-and b evaluates to a when a is falsy. -/
inductive JsVal where
  | undefined
  | bool (b : Bool)
deriving DecidableEq, Repr

/-- Task lifecycle states mirrored from SFSpeechRecognitionTaskState. -/
inductive TaskState where
  | starting
  | running
  | finishing
  | completed
  | canceling
deriving DecidableEq, Repr

/-- A speech recognizer handle, as created by the initialize function of the
module: bound to an explicit locale identifier, or to the platform default
when none was given. -/
structure Recognizer where
  localeId : Option String
deriving DecidableEq, Repr

/-- The AVAudioEngine handle together with the tapInstalled flag the code
stores on its input node (an absent flag reads as falsy, modelled false). -/
structure Engine where
  hasInputNode : Bool
  tapInstalled : Bool
  running : Bool
deriving DecidableEq, Repr

/-- A recognition request handle. rid is an identity used to distinguish
handles; reportsIncremental embeds the shouldReportPartialResults field. -/
structure Request where
  rid : Nat
  reportsIncremental : Bool
deriving DecidableEq, Repr

/-- The four module-level references of ti.speech.js. nextId is a supply of
fresh identities for newly allocated request and task handles. -/
structure ModState where
  audioEngine : Option Engine
  request : Option Request
  recognitionTask : Option Nat
  speechRecognizer : Option Recognizer
  nextId : Nat
deriving DecidableEq, Repr

/-- The module state before any call: all four references are undefined. -/
def initialState : ModState :=
  { audioEngine := none, request := none, recognitionTask := none,
    speechRecognizer := none, nextId := 0 }

/-- Outcomes of the native calls that the JS code observes but does not
decide itself. -/
structure Env where
  urlRequestOk : Bool
  engineHasInput : Bool
  engineStartOk : Bool
deriving DecidableEq, Repr

/-- Native actions performed by the module, recorded as a trace.  removeTap
records the value of the tapInstalled flag at the moment of removal. -/
inductive Action where
  | cancelTask (t : Nat)
  | createTask (t : Nat)
  | removeTap (wasInstalled : Bool)
  | installTap
  | engineStop
  | engineStart
  | endAudio
  | logError (msg : String)
  | logInfo (msg : String)
deriving DecidableEq, Repr

/-- A thrown JavaScript error: the only ones reachable in this module are
property accesses on an undefined reference. -/
inductive JsError where
  | typeError
deriving DecidableEq, Repr

/-- A native speech recognition result as seen by the result handlers. -/
structure RecogResult where
  bestTranscription : String
  isFinal : Bool
deriving DecidableEq, Repr

/-- A progress event as built by the result handlers.  Option-typed fields
model JavaScript fields that can be undefined: value is
result and-and result.bestTranscription.formattedString, state is
recognitionTask and-and recognitionTask.state, finished is
result and-and result.isFinal() except in the cancellation branch where it
is literally true. -/
structure Event where
  id : Option Nat
  error : Option Nat
  value : Option String
  state : Option TaskState
  finished : Option Bool
deriving DecidableEq, Repr

/-- The closure state captured by one startRecognition call: the (mutable)
progressCallback local, modelled by whether it is still a function, and the
immutable captured correlation token. -/
structure Session where
  progressCallback : Bool
  instanceId : Option Nat
deriving DecidableEq, Repr

/-- Arguments of startRecognition. progress records whether a callback was
supplied. -/
structure Args where
  type : Option String
  url : Option String
  progress : Bool
  id : Option Nat
deriving DecidableEq, Repr

/-- Truthiness of an optional string: undefined and the empty string are
falsy in JavaScript. -/
def jsTruthyStr : Option String → Bool
  | none => false
  | some s => !s.isEmpty

def SOURCE_TYPE_URL : String := "url"

def SOURCE_TYPE_MICROPHONE : String := "microphone"

/-- Embeds the initialize function: discards any existing recognizer and
creates a new one bound to the given locale, or a default-constructed one
when no locale is given. -/
def initRecognizer (st : ModState) (locale : Option String) : ModState :=
  { st with speechRecognizer := some { localeId := locale } }

/-- Embeds isAvailable.  The body is the and-expression
speechRecognizer and-and speechRecognizer.isAvailable(): when the
recognizer reference is undefined the expression short-circuits to that
undefined value; otherwise it is whatever boolean the native availability
check returns, passed in as avail. -/
def isAvailable (avail : Bool) (st : ModState) : JsVal :=
  match st.speechRecognizer with
  | none => JsVal.undefined
  | some _ => JsVal.bool avail

/-- Type defaulting at the top of startRecognition: a falsy type argument
becomes url when a truthy url was given, else microphone. -/
def resolveType (args : Args) : String :=
  if jsTruthyStr args.type then args.type.getD ""
  else if jsTruthyStr args.url then SOURCE_TYPE_URL
  else SOURCE_TYPE_MICROPHONE

/-- Result of a startRecognition call: the boolean return value, the module
state after the call, the session closure handed to the result handler, and
the trace of native actions performed synchronously during the call. -/
structure StartResult where
  ret : Bool
  state : ModState
  session : Session
  trace : List Action
deriving DecidableEq, Repr

/-- The url branch of startRecognition, entered after the unconditional
teardown.  Bundle path resolution (pathForResourceOfType and
fileURLWithPath) is treated as opaque and always succeeding; whether the
SFSpeechURLRecognitionRequest allocation yields a truthy handle comes from
env.urlRequestOk.  Accessing split on an undefined url argument throws. -/
def startUrl (env : Env) (st : ModState) (sess : Session) (args : Args)
    (pre : List Action) : Except JsError StartResult :=
  match args.url with
  | none => Except.error JsError.typeError
  | some _ =>
    if !env.urlRequestOk then
      Except.ok
        { ret := false, state := st, session := sess,
          trace := pre ++
            [Action.logError "Unable to created a SFSpeechURLRecognitionRequest object"] }
    else
      let req : Request := { rid := st.nextId, reportsIncremental := true }
      let st := { st with request := some req }
      let st := if st.speechRecognizer.isSome then st else initRecognizer st none
      let t := st.nextId + 1
      let st := { st with recognitionTask := some t, nextId := st.nextId + 2 }
      Except.ok
        { ret := true, state := st, session := sess,
          trace := pre ++ [Action.createTask t] }

/-- The engine created on the first microphone start: whether it has an
input node comes from the platform; no tap is installed and it is not
running. -/
def lazyEngine (env : Env) : Engine :=
  { hasInputNode := env.engineHasInput, tapInstalled := false, running := false }

/-- The microphone branch of startRecognition, entered after the
unconditional teardown.  The engine is created lazily; a missing input node
fails the call; creating the recognition task dereferences the recognizer
reference without a check and therefore throws when it is undefined; the
pre-install tap removal is guarded only by the presence of the input node,
not by the tapInstalled flag; a failed engine start returns false leaving
the freshly created task, request and tap in place. -/
def startMic (env : Env) (st : ModState) (sess : Session)
    (pre : List Action) : Except JsError StartResult :=
  let engSt : Engine × ModState :=
    match st.audioEngine with
    | some e => (e, st)
    | none => (lazyEngine env, { st with audioEngine := some (lazyEngine env) })
  let eng := engSt.1
  let st := engSt.2
  if !eng.hasInputNode then
    Except.ok
      { ret := false, state := st, session := sess,
        trace := pre ++ [Action.logError "Audio engine has no input node"] }
  else
    let req : Request := { rid := st.nextId, reportsIncremental := true }
    let st := { st with request := some req }
    match st.speechRecognizer with
    | none => Except.error JsError.typeError
    | some _ =>
      let t := st.nextId + 1
      let st := { st with recognitionTask := some t, nextId := st.nextId + 2 }
      let tapRemoval : Engine × List Action :=
        if eng.hasInputNode then
          ({ eng with tapInstalled := false }, [Action.removeTap eng.tapInstalled])
        else (eng, [])
      let eng := { tapRemoval.1 with tapInstalled := true }
      let tapTrace := tapRemoval.2 ++ [Action.installTap]
      if !env.engineStartOk then
        Except.ok
          { ret := false, state := { st with audioEngine := some eng },
            session := sess, trace := pre ++ ([Action.createTask t] ++ tapTrace) }
      else
        let eng := { eng with running := true }
        Except.ok
          { ret := true, state := { st with audioEngine := some eng },
            session := sess,
            trace := pre ++ ([Action.createTask t] ++ tapTrace ++ [Action.engineStart]) }

/-- Warning logged at the top of startRecognition when no progress
callback was supplied. -/
def warnTrace (args : Args) : List Action :=
  if args.progress then []
  else [Action.logError "No progress callback supplied - You will not be notified about transcription updates"]

/-- The cancel call performed by the unconditional teardown at the top of
startRecognition when a task is tracked. -/
def cancelTrace (st : ModState) : List Action :=
  match st.recognitionTask with
  | some t => [Action.cancelTask t]
  | none => []

/-- The unconditional teardown at the top of startRecognition: the tracked
task (after being cancelled) and the tracked request are cleared. -/
def tearDown (st : ModState) : ModState :=
  { st with recognitionTask := none, request := none }

/-- Embeds startRecognition: captures the session closure, logs a warning
when no progress callback was supplied, unconditionally cancels and clears
any tracked task and clears any tracked request, then dispatches on the
resolved type; an unhandled type logs an error and returns false. -/
def startRecognition (env : Env) (st : ModState) (args : Args) :
    Except JsError StartResult :=
  let sess : Session := { progressCallback := args.progress, instanceId := args.id }
  let pre := warnTrace args ++ cancelTrace st
  let st := tearDown st
  let ty := resolveType args
  if ty = SOURCE_TYPE_URL then startUrl env st sess args pre
  else if ty = SOURCE_TYPE_MICROPHONE then startMic env st sess pre
  else
    Except.ok
      { ret := false, state := st, session := sess,
        trace := pre ++ [Action.logError ("Unhandled type supplied:" ++ ty)] }

/-- Output of one invocation of a result handler: the updated closure, the
updated module state, the progress events delivered to the callback and the
native actions performed. -/
structure HandlerOut where
  session : Session
  state : ModState
  events : List Event
  actions : List Action
deriving DecidableEq, Repr

/-- Embeds the result handler installed by the url branch.  It returns
silently when no task is tracked; in the canceling state it emits one final
event with finished true and clears callback, request and task; otherwise
it emits a progress event and on error or final result clears task and
request. -/
def urlHandler (sess : Session) (st : ModState) (taskState : TaskState)
    (result : Option RecogResult) (error : Option Nat) : HandlerOut :=
  match st.recognitionTask with
  | none => { session := sess, state := st, events := [], actions := [] }
  | some _ =>
    if taskState = TaskState.canceling then
      let evs : List Event :=
        if sess.progressCallback then
          [{ id := sess.instanceId, error := error,
             value := result.map (fun r => r.bestTranscription),
             state := some taskState, finished := some true }]
        else []
      { session := { sess with progressCallback := false },
        state := { st with request := none, recognitionTask := none },
        events := evs,
        actions := [Action.logInfo "The speech recognition task has been cancelled."] }
    else
      let isFinalJs : Option Bool := result.map (fun r => r.isFinal)
      let evs : List Event :=
        if sess.progressCallback then
          [{ id := sess.instanceId, error := error,
             value := result.map (fun r => r.bestTranscription),
             state := some taskState, finished := isFinalJs }]
        else []
      if error.isSome || isFinalJs.getD false then
        { session := sess,
          state := { st with recognitionTask := none, request := none },
          events := evs, actions := [] }
      else
        { session := sess, state := st, events := evs, actions := [] }

/-- Embeds the result handler installed by the microphone branch.  It has
no guard on a missing task and no cancellation branch; it always emits a
progress event (when a callback is set) whose state field is undefined when
no task is tracked; on error or final result it removes the tap when the
tapInstalled flag is set, stops a running engine, ends the audio of the
request when one is tracked, and clears the task but not the request. -/
def micHandler (sess : Session) (st : ModState) (taskState : TaskState)
    (result : Option RecogResult) (error : Option Nat) : HandlerOut :=
  let isFinalJs : Option Bool := result.map (fun r => r.isFinal)
  let isFinal : Bool := isFinalJs.getD false
  let evs : List Event :=
    if sess.progressCallback then
      [{ id := sess.instanceId, error := error,
         value := result.map (fun r => r.bestTranscription),
         state := st.recognitionTask.map (fun _ => taskState),
         finished := isFinalJs }]
    else []
  if error.isSome || isFinal then
    let cleanup : ModState × List Action :=
      match st.audioEngine with
      | some eng =>
        let tap : Engine × List Action :=
          if eng.hasInputNode && eng.tapInstalled then
            ({ eng with tapInstalled := false }, [Action.removeTap true])
          else (eng, [])
        let stop : Engine × List Action :=
          if tap.1.running then ({ tap.1 with running := false }, [Action.engineStop])
          else (tap.1, [])
        ({ st with audioEngine := some stop.1 }, tap.2 ++ stop.2)
      | none => (st, [])
    let acts := cleanup.2 ++ (if st.request.isSome then [Action.endAudio] else [])
    { session := sess, state := { cleanup.1 with recognitionTask := none },
      events := evs, actions := acts }
  else
    { session := sess, state := st, events := evs, actions := [] }

/-- Embeds stopRecognition: with an engine present it stops a running
engine, ends the audio of a tracked request and removes the tap when the
tapInstalled flag is set; otherwise a tracked task is cancelled; otherwise
nothing happens. -/
def stopRecognition (st : ModState) : ModState × List Action :=
  match st.audioEngine with
  | some eng =>
    let stop : Engine × List Action :=
      if eng.running then ({ eng with running := false }, [Action.engineStop])
      else (eng, [])
    let endTr : List Action := if st.request.isSome then [Action.endAudio] else []
    let tap : Engine × List Action :=
      if stop.1.hasInputNode && stop.1.tapInstalled then
        ({ stop.1 with tapInstalled := false }, [Action.removeTap true])
      else (stop.1, [])
    ({ st with audioEngine := some tap.1 }, stop.2 ++ endTr ++ tap.2)
  | none =>
    match st.recognitionTask with
    | some t => (st, [Action.cancelTask t])
    | none => (st, [])

/-- Recognises a task-creation action. -/
def isCreate : Action → Bool
  | Action.createTask _ => true
  | _ => false

/-- Holds when the trace contains a cancellation of task t strictly before
any task creation (scanning left to right, cancelTask t is reached before
any createTask). -/
def cancelsBeforeCreate (t : Nat) : List Action → Bool
  | [] => false
  | a :: rest =>
    if a = Action.cancelTask t then true
    else if isCreate a then false
    else cancelsBeforeCreate t rest

/-- Holds when the trace contains a tap removal performed while the
tapInstalled flag was false. -/
def ungatedTapRemoval (tr : List Action) : Bool :=
  tr.any (fun a => a = Action.removeTap false)

/-- Environment in which every native operation succeeds. -/
def envAllOk : Env :=
  { urlRequestOk := true, engineHasInput := true, engineStartOk := true }

/-- Environment in which the audio engine fails to start. -/
def envStartFail : Env :=
  { urlRequestOk := true, engineHasInput := true, engineStartOk := false }

/-- A default-constructed recognizer, as produced by calling the
initialize function without a locale. -/
def recogDefault : Recognizer := { localeId := none }

/-- Module state after initialize was called and nothing else is live. -/
def stIdleInit : ModState :=
  { audioEngine := none, request := none, recognitionTask := none,
    speechRecognizer := some recogDefault, nextId := 2 }

/-- Module state during a live url-mode session: a request and a task are
tracked, no audio engine was ever created. -/
def stUrlLive : ModState :=
  { audioEngine := none, request := some { rid := 0, reportsIncremental := true },
    recognitionTask := some 1, speechRecognizer := some recogDefault, nextId := 2 }

/-- Module state during a live microphone-mode session: engine running with
the tap installed, a request and a task tracked. -/
def stMicLive : ModState :=
  { audioEngine := some { hasInputNode := true, tapInstalled := true, running := true },
    request := some { rid := 0, reportsIncremental := true },
    recognitionTask := some 1, speechRecognizer := some recogDefault, nextId := 2 }

/-- Session closure with a progress callback and correlation token 7. -/
def sessLive : Session := { progressCallback := true, instanceId := some 7 }

/-- Arguments explicitly selecting microphone mode. -/
def argsMicT : Args :=
  { type := some "microphone", url := none, progress := true, id := some 7 }

/-- Arguments with a url and no explicit type (type defaults to url). -/
def argsUrlT : Args :=
  { type := none, url := some "audio.mp3", progress := true, id := some 7 }

/-- Arguments with an unhandled explicit type. -/
def argsBogus : Args :=
  { type := some "bogus", url := none, progress := true, id := some 7 }

/-- Environment in which the url request allocation fails. -/
def envReqFail : Env :=
  { urlRequestOk := false, engineHasInput := true, engineStartOk := true }

/-- C8 counterexample: before any call to the initialize function the
recognizer reference is undefined, so isAvailable short-circuits and
returns that undefined value, not the boolean false, even when the native
availability check would report false. -/
theorem c8_counterexample :
    isAvailable false initialState = JsVal.undefined ∧
    isAvailable false initialState ≠ JsVal.bool false := by
  constructor
  · rfl
  · decide

/-- C8 (amended): whenever no recognizer is held, isAvailable evaluates to
the JavaScript value undefined (which is falsy but is not the boolean
false), for every native availability answer, and it does not throw (the
embedding is a total function). -/
theorem c8_no_recognizer (avail : Bool) (st : ModState)
    (h : st.speechRecognizer = none) :
    isAvailable avail st = JsVal.undefined := by
  simp [isAvailable, h]

/-- C8 witness: the amended statement evaluated in the pristine initial
state. -/
theorem c8_witness : isAvailable true initialState = JsVal.undefined :=
  c8_no_recognizer true initialState rfl

/-- C2 counterexample: calling startRecognition with the unhandled type
bogus while a url-mode task is live returns false but does not leave the
task state unchanged: the previously tracked task is cancelled and cleared
by the unconditional teardown that precedes the type dispatch. -/
theorem c2_counterexample :
    stUrlLive.recognitionTask = some 1 ∧
    (startRecognition envAllOk stUrlLive argsBogus).map
        (fun r => (r.ret, r.state.recognitionTask)) =
      Except.ok (false, none) := by
  constructor
  · rfl
  · rfl

/-- C2 (amended): a startRecognition call whose resolved type is neither
url nor microphone logs an error and returns false; the engine and
recognizer references are untouched, but, as on every startRecognition
call, any tracked task and request have already been cleared by the
teardown that runs before the type check. -/
theorem c2_unknown_type (env : Env) (st : ModState) (args : Args)
    (hty1 : resolveType args ≠ SOURCE_TYPE_URL)
    (hty2 : resolveType args ≠ SOURCE_TYPE_MICROPHONE) :
    ∃ r, startRecognition env st args = Except.ok r ∧
      r.ret = false ∧
      r.state.audioEngine = st.audioEngine ∧
      r.state.speechRecognizer = st.speechRecognizer ∧
      r.state.nextId = st.nextId ∧
      r.state.recognitionTask = none ∧
      r.state.request = none ∧
      Action.logError ("Unhandled type supplied:" ++ resolveType args) ∈ r.trace := by
  simp only [startRecognition]
  rw [if_neg hty1, if_neg hty2]
  exact ⟨_, rfl, rfl, rfl, rfl, rfl, rfl, rfl, by simp⟩

/-- C2 witness: the amended statement evaluated at an unhandled type from a
state with a live url session. -/
theorem c2_witness :
    ∃ r, startRecognition envAllOk stUrlLive argsBogus = Except.ok r ∧
      r.ret = false ∧
      r.state.audioEngine = stUrlLive.audioEngine ∧
      r.state.speechRecognizer = stUrlLive.speechRecognizer ∧
      r.state.nextId = stUrlLive.nextId ∧
      r.state.recognitionTask = none ∧
      r.state.request = none ∧
      Action.logError ("Unhandled type supplied:" ++ resolveType argsBogus) ∈ r.trace :=
  c2_unknown_type envAllOk stUrlLive argsBogus (by decide) (by decide)

/-- C3: the pre-install tap removal in the microphone branch of
startRecognition is guarded only by the presence of the input node, not by
the tapInstalled flag: on the first microphone start after initialize (no
tap has ever been installed, so the flag is false) the trace contains a tap
removal performed while tapInstalled was false, contradicting the stated
gating discipline and the comment in the code that such a removal crashes
the app. -/
theorem c3_ungated_removal :
    stIdleInit.audioEngine = none ∧
    (startRecognition envAllOk stIdleInit argsMicT).map
        (fun r => ungatedTapRemoval r.trace) =
      Except.ok true := by
  constructor
  · rfl
  · rfl

/-- C7: stopRecognition with an engine present stops it when running, ends
the audio of a tracked request, and removes the tap exactly when the
tapInstalled flag (and the input node) is set, never cancelling the task;
with no engine but a tracked task it only cancels that task; with neither
it does nothing (and, being a total function, raises no error). -/
theorem c7_stopRecognition (st : ModState) :
    (st.audioEngine = none → st.recognitionTask = none →
      stopRecognition st = (st, [])) ∧
    (∀ t, st.audioEngine = none → st.recognitionTask = some t →
      stopRecognition st = (st, [Action.cancelTask t])) ∧
    (∀ eng, st.audioEngine = some eng →
      (stopRecognition st).1.recognitionTask = st.recognitionTask ∧
      (stopRecognition st).1.request = st.request ∧
      (∃ e2, (stopRecognition st).1.audioEngine = some e2 ∧
        e2.running = false ∧ e2.hasInputNode = eng.hasInputNode ∧
        e2.tapInstalled = (eng.tapInstalled && !eng.hasInputNode)) ∧
      (eng.running = true → Action.engineStop ∈ (stopRecognition st).2) ∧
      (st.request.isSome = true → Action.endAudio ∈ (stopRecognition st).2) ∧
      (∀ b, Action.removeTap b ∈ (stopRecognition st).2 →
        b = true ∧ eng.tapInstalled = true ∧ eng.hasInputNode = true) ∧
      (eng.hasInputNode = true → eng.tapInstalled = true →
        Action.removeTap true ∈ (stopRecognition st).2) ∧
      (∀ u, Action.cancelTask u ∉ (stopRecognition st).2)) := by
  refine ⟨?_, ?_, ?_⟩
  · intro h1 h2
    simp [stopRecognition, h1, h2]
  · intro t h1 h2
    simp [stopRecognition, h1, h2]
  · intro eng h
    obtain ⟨hin, htap, hrun⟩ := eng
    cases hin <;> cases htap <;> cases hrun <;>
      cases hreq : st.request <;>
        simp [stopRecognition, h, hreq]

/-- C7 witness: stopRecognition with no engine and no task is a no-op. -/
theorem c7_witness : stopRecognition initialState = (initialState, []) :=
  (c7_stopRecognition initialState).1 rfl rfl

/-- Characterisation of the url branch: on a failed request allocation it
returns false leaving the state as handed in; on success it returns true,
tracks a fresh request and a fresh task, and keeps the recognizer when one
was held, creating a default one otherwise; the trace extends the handed-in
teardown trace; the session closure is returned unchanged. -/
theorem startUrl_post (env : Env) (st : ModState) (sess : Session)
    (args : Args) (pre : List Action) (r : StartResult)
    (h : startUrl env st sess args pre = Except.ok r) :
    r.session = sess ∧
    (∃ suf, r.trace = pre ++ suf) ∧
    (env.urlRequestOk = false → r.ret = false ∧ r.state = st) ∧
    (env.urlRequestOk = true → r.ret = true ∧
      r.state = { st with
        request := some { rid := st.nextId, reportsIncremental := true },
        speechRecognizer := some (st.speechRecognizer.getD { localeId := none }),
        recognitionTask := some (st.nextId + 1),
        nextId := st.nextId + 2 }) := by
  simp only [startUrl] at h
  split at h
  · simp at h
  · rcases hok : env.urlRequestOk with _ | _ <;> rw [hok] at h <;> simp only [Bool.not_false, Bool.not_true, if_true, if_false] at h
    · injection h with h
      subst h
      refine ⟨rfl, ⟨_, rfl⟩, ?_, ?_⟩
      · intro _; exact ⟨rfl, rfl⟩
      · intro hc; simp [hok] at hc
    · rcases hsr : st.speechRecognizer with _ | recog <;>
        simp only [hsr, Option.isSome_none, Option.isSome_some, if_true, if_false,
          initRecognizer] at h <;>
      · injection h with h
        subst h
        refine ⟨rfl, ⟨_, rfl⟩, ?_, ?_⟩
        · intro hc; simp [hok] at hc
        · intro _
          refine ⟨rfl, ?_⟩
          simp [hsr]

/-- Characterisation of the microphone branch: with no input node on the
(possibly lazily created) engine it returns false leaving task, request,
recognizer and the id supply as handed in; otherwise, when it returns at
all (the recognizer dereference did not throw), it tracks a fresh request
and a fresh task, leaves the tap installed, and returns whether the engine
started, the engine running exactly when it started or was already
running; the trace extends the handed-in teardown trace; the session
closure is returned unchanged. -/
theorem startMic_post (env : Env) (st : ModState) (sess : Session)
    (pre : List Action) (r : StartResult)
    (h : startMic env st sess pre = Except.ok r) :
    r.session = sess ∧
    (∃ suf, r.trace = pre ++ suf) ∧
    ((st.audioEngine.getD (lazyEngine env)).hasInputNode = false →
      r.ret = false ∧
      r.state.recognitionTask = st.recognitionTask ∧
      r.state.request = st.request ∧
      r.state.speechRecognizer = st.speechRecognizer ∧
      r.state.nextId = st.nextId) ∧
    ((st.audioEngine.getD (lazyEngine env)).hasInputNode = true →
      r.ret = env.engineStartOk ∧
      r.state = { st with
        audioEngine := some
          { hasInputNode := true, tapInstalled := true,
            running := env.engineStartOk || (st.audioEngine.getD (lazyEngine env)).running },
        request := some { rid := st.nextId, reportsIncremental := true },
        recognitionTask := some (st.nextId + 1),
        nextId := st.nextId + 2 }) := by
  rcases heng : st.audioEngine with _ | eng
  · simp only [startMic, heng, Option.getD_none, lazyEngine] at h ⊢
    rcases hin : env.engineHasInput with _ | _ <;> simp only [hin, Bool.not_false, Bool.not_true, if_true, if_false] at h
    · injection h with h
      subst h
      refine ⟨rfl, ⟨_, rfl⟩, ?_, ?_⟩
      · intro _; exact ⟨rfl, rfl, rfl, rfl, rfl⟩
      · intro hc; exact absurd hc (by simp)
    · rcases hsr : st.speechRecognizer with _ | recog <;> rw [hsr] at h
      · simp at h
      · rcases hstart : env.engineStartOk with _ | _ <;>
          simp only [hstart, Bool.not_false, Bool.not_true, if_true, if_false] at h <;>
        · injection h with h
          subst h
          refine ⟨rfl, ⟨_, rfl⟩, ?_, ?_⟩
          · intro hc; exact absurd hc (by simp)
          · intro _; exact ⟨rfl, rfl⟩
  · simp only [startMic, heng, Option.getD_some] at h ⊢
    rcases eng with ⟨hinb, tapb, runb⟩
    rcases hin : hinb with _ | _ <;> subst hin <;>
      simp only [Bool.not_false, Bool.not_true, if_true, if_false] at h ⊢
    · injection h with h
      subst h
      refine ⟨rfl, ⟨_, rfl⟩, ?_, ?_⟩
      · intro _; exact ⟨rfl, rfl, rfl, rfl, rfl⟩
      · intro hc; exact absurd hc (by simp)
    · rcases hsr : st.speechRecognizer with _ | recog <;> rw [hsr] at h
      · simp at h
      · rcases hstart : env.engineStartOk with _ | _ <;>
          simp only [hstart, Bool.not_false, Bool.not_true, if_true, if_false] at h <;>
        · injection h with h
          subst h
          refine ⟨rfl, ⟨_, rfl⟩, ?_, ?_⟩
          · intro hc; exact absurd hc (by simp)
          · intro _; exact ⟨rfl, by simp⟩

/-- The microphone branch dereferences the recognizer reference without a
null check: when no recognizer is held and the engine exposes an input
node, it throws. -/
theorem startMic_crash (env : Env) (st : ModState) (sess : Session)
    (pre : List Action) (hsr : st.speechRecognizer = none)
    (hin : (st.audioEngine.getD (lazyEngine env)).hasInputNode = true) :
    startMic env st sess pre = Except.error JsError.typeError := by
  rcases heng : st.audioEngine with _ | eng <;>
    simp only [heng, Option.getD_none, Option.getD_some, lazyEngine] at hin <;>
    simp [startMic, heng, hin, hsr, lazyEngine]

/-- startRecognition dispatches to the url branch when the resolved type is
url, applied to the torn-down state and the teardown trace. -/
theorem startRecognition_url_eq (env : Env) (st : ModState) (args : Args)
    (hty : resolveType args = SOURCE_TYPE_URL) :
    startRecognition env st args =
      startUrl env (tearDown st)
        { progressCallback := args.progress, instanceId := args.id }
        args (warnTrace args ++ cancelTrace st) := by
  simp only [startRecognition]
  rw [hty, if_pos rfl]

/-- startRecognition dispatches to the microphone branch when the resolved
type is microphone, applied to the torn-down state and the teardown
trace. -/
theorem startRecognition_mic_eq (env : Env) (st : ModState) (args : Args)
    (hty : resolveType args = SOURCE_TYPE_MICROPHONE) :
    startRecognition env st args =
      startMic env (tearDown st)
        { progressCallback := args.progress, instanceId := args.id }
        (warnTrace args ++ cancelTrace st) := by
  simp only [startRecognition]
  rw [hty, if_neg (by decide), if_pos rfl]

/-- startRecognition with an unhandled resolved type returns false with the
torn-down state and logs the unhandled type. -/
theorem startRecognition_other_eq (env : Env) (st : ModState) (args : Args)
    (hty1 : resolveType args ≠ SOURCE_TYPE_URL)
    (hty2 : resolveType args ≠ SOURCE_TYPE_MICROPHONE) :
    startRecognition env st args = Except.ok
      { ret := false, state := tearDown st,
        session := { progressCallback := args.progress, instanceId := args.id },
        trace := warnTrace args ++ cancelTrace st ++
          [Action.logError ("Unhandled type supplied:" ++ resolveType args)] } := by
  simp only [startRecognition]
  rw [if_neg hty1, if_neg hty2]

/-- Every event list produced by the url result handler is empty or a
single event carrying the captured correlation token. -/
theorem urlHandler_event_id (sess : Session) (st : ModState) (ts : TaskState)
    (res : Option RecogResult) (err : Option Nat) (ev : Event)
    (hev : ev ∈ (urlHandler sess st ts res err).events) :
    ev.id = sess.instanceId := by
  rcases htask : st.recognitionTask with _ | t <;>
    rcases hcb : sess.progressCallback with _ | _ <;>
    by_cases hts : ts = TaskState.canceling <;>
    by_cases hfin : (err.isSome || ((res.map fun x => x.isFinal).getD false)) = true <;>
    simp only [urlHandler, htask, hcb, hts, hfin, if_true, if_false,
      Bool.false_eq_true, Bool.true_eq_false, List.not_mem_nil,
      List.mem_singleton, eq_self_iff_true] at hev <;>
    first
    | exact absurd hev (by simp)
    | (subst hev; rfl)

/-- Every event list produced by the microphone result handler is empty or
a single event carrying the captured correlation token. -/
theorem micHandler_event_id (sess : Session) (st : ModState) (ts : TaskState)
    (res : Option RecogResult) (err : Option Nat) (ev : Event)
    (hev : ev ∈ (micHandler sess st ts res err).events) :
    ev.id = sess.instanceId := by
  rcases hcb : sess.progressCallback with _ | _ <;>
    by_cases hfin : (err.isSome || ((res.map fun x => x.isFinal).getD false)) = true <;>
    simp only [micHandler, hcb, hfin, if_true, if_false,
      Bool.false_eq_true, Bool.true_eq_false, List.not_mem_nil,
      List.mem_singleton, eq_self_iff_true] at hev <;>
    first
    | exact absurd hev (by simp)
    | (subst hev; rfl)

/-- With a tracked task, the teardown trace is exactly its cancellation. -/
theorem cancelTrace_some (st : ModState) (t : Nat)
    (h : st.recognitionTask = some t) :
    cancelTrace st = [Action.cancelTask t] := by
  simp [cancelTrace, h]

/-- A trace beginning with the warning (if any) followed by the teardown
cancellation reaches the cancellation before any task creation. -/
theorem cancelsBeforeCreate_teardown (args : Args) (t : Nat) (suf : List Action) :
    cancelsBeforeCreate t ((warnTrace args ++ [Action.cancelTask t]) ++ suf) = true := by
  rcases hp : args.progress with _ | _ <;>
    simp [warnTrace, hp, cancelsBeforeCreate, isCreate]

/-- C9: the correlation token flows unchanged from the startRecognition
arguments into the captured session closure, and every progress event
emitted by either result handler carries the token of its session
closure. -/
theorem c9_id_passthrough :
    (∀ env st args r, startRecognition env st args = Except.ok r →
      r.session.instanceId = args.id) ∧
    (∀ sess st ts res err ev, ev ∈ (urlHandler sess st ts res err).events →
      ev.id = sess.instanceId) ∧
    (∀ sess st ts res err ev, ev ∈ (micHandler sess st ts res err).events →
      ev.id = sess.instanceId) := by
  refine ⟨?_, urlHandler_event_id, micHandler_event_id⟩
  intro env st args r hok
  by_cases h1 : resolveType args = SOURCE_TYPE_URL
  · rw [startRecognition_url_eq env st args h1] at hok
    rw [(startUrl_post _ _ _ _ _ _ hok).1]
  · by_cases h2 : resolveType args = SOURCE_TYPE_MICROPHONE
    · rw [startRecognition_mic_eq env st args h2] at hok
      rw [(startMic_post _ _ _ _ _ hok).1]
    · rw [startRecognition_other_eq env st args h1 h2] at hok
      injection hok with hok
      subst hok
      rfl

/-- C9 witness: a concrete progress event of a url-mode session carries the
token 7 supplied in the call. -/
theorem c9_witness :
    ({ id := some 7, error := none, value := none,
       state := some TaskState.running, finished := none } : Event).id =
      sessLive.instanceId :=
  c9_id_passthrough.2.1 sessLive stUrlLive TaskState.running none none _ (by decide)

/-- C1 counterexample: a sequence consisting of one startRecognition call
with an unhandled type leaves no active task at all, so it is not the case
that after any sequence of startRecognition calls exactly one task is
active. -/
theorem c1_counterexample :
    (startRecognition envAllOk stIdleInit argsBogus).map
        (fun r => r.state.recognitionTask) =
      Except.ok none := by
  rfl

/-- C1 (amended): every startRecognition call cancels a previously tracked
task before any new task is created, and any task or request tracked after
the call is one freshly created during it (so the previous pair is torn
down first and at most one task is ever tracked; the claim that exactly
one task is active after any sequence of calls fails for calls that return
false before creating a task). -/
theorem c1_teardown_first (env : Env) (st : ModState) (args : Args)
    (r : StartResult) (t : Nat)
    (hok : startRecognition env st args = Except.ok r)
    (htask : st.recognitionTask = some t)
    (hwf : t < st.nextId) :
    cancelsBeforeCreate t r.trace = true ∧
    r.state.recognitionTask ≠ some t ∧
    (∀ u, r.state.recognitionTask = some u → st.nextId ≤ u) ∧
    (∀ rq, r.state.request = some rq → st.nextId ≤ rq.rid) := by
  by_cases h1 : resolveType args = SOURCE_TYPE_URL
  · rw [startRecognition_url_eq env st args h1] at hok
    obtain ⟨hsess, ⟨suf, htr⟩, hfail, hsucc⟩ := startUrl_post _ _ _ _ _ _ hok
    refine ⟨?_, ?_, ?_, ?_⟩
    · rw [htr, cancelTrace_some st t htask]
      exact cancelsBeforeCreate_teardown args t suf
    · rcases henv : env.urlRequestOk with _ | _
      · rw [(hfail henv).2]
        simp [tearDown]
      · rw [(hsucc henv).2]
        simp only [tearDown]
        intro hc
        injection hc with hc
        omega
    · intro u hu
      rcases henv : env.urlRequestOk with _ | _
      · rw [(hfail henv).2] at hu
        simp [tearDown] at hu
      · rw [(hsucc henv).2] at hu
        simp only [tearDown] at hu
        injection hu with hu
        omega
    · intro rq hrq
      rcases henv : env.urlRequestOk with _ | _
      · rw [(hfail henv).2] at hrq
        simp [tearDown] at hrq
      · rw [(hsucc henv).2] at hrq
        simp only [tearDown] at hrq
        injection hrq with hrq
        subst hrq
        simp
  · by_cases h2 : resolveType args = SOURCE_TYPE_MICROPHONE
    · rw [startRecognition_mic_eq env st args h2] at hok
      obtain ⟨hsess, ⟨suf, htr⟩, hfail, hsucc⟩ := startMic_post _ _ _ _ _ hok
      refine ⟨?_, ?_, ?_, ?_⟩
      · rw [htr, cancelTrace_some st t htask]
        exact cancelsBeforeCreate_teardown args t suf
      · rcases hin : ((tearDown st).audioEngine.getD (lazyEngine env)).hasInputNode with _ | _
        · rw [(hfail hin).2.1]
          simp [tearDown]
        · rw [(hsucc hin).2]
          simp only [tearDown]
          intro hc
          injection hc with hc
          omega
      · intro u hu
        rcases hin : ((tearDown st).audioEngine.getD (lazyEngine env)).hasInputNode with _ | _
        · rw [(hfail hin).2.1] at hu
          simp [tearDown] at hu
        · rw [(hsucc hin).2] at hu
          simp only [tearDown] at hu
          injection hu with hu
          omega
      · intro rq hrq
        rcases hin : ((tearDown st).audioEngine.getD (lazyEngine env)).hasInputNode with _ | _
        · rw [(hfail hin).2.2.1] at hrq
          simp [tearDown] at hrq
        · rw [(hsucc hin).2] at hrq
          simp only [tearDown] at hrq
          injection hrq with hrq
          subst hrq
          simp
    · rw [startRecognition_other_eq env st args h1 h2] at hok
      injection hok with hok
      subst hok
      refine ⟨?_, by simp [tearDown], by simp [tearDown], by simp [tearDown]⟩
      rw [cancelTrace_some st t htask]
      exact cancelsBeforeCreate_teardown args t _

/-- C1 witness: the amended statement evaluated on a second
startRecognition call issued while a url session with task 1 is live. -/
theorem c1_witness :
    ∃ r, startRecognition envAllOk stUrlLive argsUrlT = Except.ok r ∧
      cancelsBeforeCreate 1 r.trace = true ∧
      r.state.recognitionTask ≠ some 1 := by
  have hok : startRecognition envAllOk stUrlLive argsUrlT = Except.ok
      { ret := true,
        state :=
          { audioEngine := none,
            request := some { rid := 2, reportsIncremental := true },
            recognitionTask := some 3,
            speechRecognizer := some { localeId := none }, nextId := 4 },
        session := { progressCallback := true, instanceId := some 7 },
        trace := [Action.cancelTask 1, Action.createTask 3] } := rfl
  obtain ⟨hc, hne, _, _⟩ :=
    c1_teardown_first envAllOk stUrlLive argsUrlT _ 1 hok rfl (by decide)
  exact ⟨_, hok, hc, hne⟩

/-- C4 counterexample: the microphone result handler has no cancellation
branch: invoked with the task in the canceling state (no error, no result)
it emits an ordinary progress event whose finished field is undefined
rather than true, clears neither the callback nor the task nor the
request, and performs no cleanup, so further events can still follow. -/
theorem c4_counterexample :
    micHandler sessLive stMicLive TaskState.canceling none none =
      { session := sessLive, state := stMicLive,
        events :=
          [{ id := some 7, error := none, value := none,
             state := some TaskState.canceling, finished := none }],
        actions := [] } := by
  rfl

/-- C4 (amended): in url mode only, a callback observing the canceling
state emits exactly one terminal event with finished true, clears the
tracked task, request and callback, and no later invocation of the url
handler for that session emits any further event; the microphone handler
has no such cancellation branch. -/
theorem c4_url_cancel_once (sess : Session) (st : ModState)
    (res : Option RecogResult) (err : Option Nat) (t : Nat)
    (htask : st.recognitionTask = some t)
    (hcb : sess.progressCallback = true) :
    (urlHandler sess st TaskState.canceling res err).events =
      [{ id := sess.instanceId, error := err,
         value := res.map (fun x => x.bestTranscription),
         state := some TaskState.canceling, finished := some true }] ∧
    (urlHandler sess st TaskState.canceling res err).state.recognitionTask = none ∧
    (urlHandler sess st TaskState.canceling res err).state.request = none ∧
    (urlHandler sess st TaskState.canceling res err).session.progressCallback = false ∧
    (∀ ts2 res2 err2,
      (urlHandler (urlHandler sess st TaskState.canceling res err).session
          (urlHandler sess st TaskState.canceling res err).state ts2 res2 err2).events =
        []) := by
  refine ⟨?_, ?_, ?_, ?_, ?_⟩ <;>
    simp [urlHandler, htask, hcb]

/-- C4 witness: the amended statement evaluated for a live url session with
correlation token 7 observing cancellation. -/
theorem c4_witness :
    (urlHandler sessLive stUrlLive TaskState.canceling none none).events =
      [{ id := some 7, error := none, value := none,
         state := some TaskState.canceling, finished := some true }] :=
  (c4_url_cancel_once sessLive stUrlLive none none 1 rfl rfl).1

/-- C5 counterexample: after a final result the microphone handler clears
the task but leaves the tracked request in place, contradicting the claim
that both references are cleared in both modes. -/
theorem c5_counterexample :
    (micHandler sessLive stMicLive TaskState.running
        (some { bestTranscription := "done", isFinal := true }) none).state.request =
      some { rid := 0, reportsIncremental := true } ∧
    (micHandler sessLive stMicLive TaskState.running
        (some { bestTranscription := "done", isFinal := true }) none).state.recognitionTask =
      none := by
  constructor <;> rfl

/-- C5 (amended): on error or final result the url handler clears both the
task and the request and leaves the engine untouched with no native
actions, while the microphone handler clears only the task (the request
reference keeps its value), never removes the tap while the tapInstalled
flag is false, leaves the engine not running, and removes the tap (setting
the flag false) when the input node and the flag are present. -/
theorem c5_cleanup :
    (∀ sess st ts res err t, st.recognitionTask = some t →
      ts ≠ TaskState.canceling →
      (err.isSome || ((res.map fun x => x.isFinal).getD false)) = true →
      (urlHandler sess st ts res err).state.recognitionTask = none ∧
      (urlHandler sess st ts res err).state.request = none ∧
      (urlHandler sess st ts res err).state.audioEngine = st.audioEngine ∧
      (urlHandler sess st ts res err).actions = []) ∧
    (∀ sess st ts res err,
      (err.isSome || ((res.map fun x => x.isFinal).getD false)) = true →
      (micHandler sess st ts res err).state.recognitionTask = none ∧
      (micHandler sess st ts res err).state.request = st.request ∧
      (∀ b, Action.removeTap b ∈ (micHandler sess st ts res err).actions → b = true) ∧
      (∀ eng, st.audioEngine = some eng →
        ∃ e2, (micHandler sess st ts res err).state.audioEngine = some e2 ∧
          e2.running = false ∧
          (eng.hasInputNode = true → eng.tapInstalled = true →
            e2.tapInstalled = false ∧
            Action.removeTap true ∈ (micHandler sess st ts res err).actions))) := by
  constructor
  · intro sess st ts res err t htask hts hfin
    refine ⟨?_, ?_, ?_, ?_⟩ <;> simp [urlHandler, htask, hts, hfin]
  · intro sess st ts res err hfin
    refine ⟨?_, ?_, ?_, ?_⟩
    · rcases heng : st.audioEngine with _ | eng <;>
        simp [micHandler, hfin, heng]
    · rcases heng : st.audioEngine with _ | eng <;>
        simp [micHandler, hfin, heng]
    · intro b hb
      rcases heng : st.audioEngine with _ | eng
      · rcases hreq : st.request with _ | rq <;>
          simp only [micHandler, hfin, heng, hreq] at hb <;> simp_all
      · rcases eng with ⟨hin, tap, run⟩
        rcases hin <;> rcases tap <;> rcases run <;>
          rcases hreq : st.request with _ | rq <;>
          simp only [micHandler, hfin, heng, hreq] at hb <;> simp_all
    · intro eng heng
      rcases eng with ⟨hin, tap, run⟩
      rcases hin <;> rcases tap <;> rcases run <;>
        rcases hreq : st.request with _ | rq <;>
        simp [micHandler, hfin, heng, hreq]

/-- C5 witness: the amended statement evaluated for a url-mode final
result. -/
theorem c5_witness :
    (urlHandler sessLive stUrlLive TaskState.finishing
        (some { bestTranscription := "done", isFinal := true }) none).state.recognitionTask =
      none ∧
    (urlHandler sessLive stUrlLive TaskState.finishing
        (some { bestTranscription := "done", isFinal := true }) none).state.request =
      none :=
  ⟨(c5_cleanup.1 sessLive stUrlLive TaskState.finishing
      (some { bestTranscription := "done", isFinal := true }) none 1 rfl
      (by decide) (by decide)).1,
   (c5_cleanup.1 sessLive stUrlLive TaskState.finishing
      (some { bestTranscription := "done", isFinal := true }) none 1 rfl
      (by decide) (by decide)).2.1⟩

/-- With a url argument present and a failing request allocation, the url
branch returns false with the state exactly as handed in. -/
theorem startUrl_fail_eq (env : Env) (st : ModState) (sess : Session)
    (args : Args) (pre : List Action) (u : String)
    (hurl : args.url = some u) (henv : env.urlRequestOk = false) :
    startUrl env st sess args pre = Except.ok
      { ret := false, state := st, session := sess,
        trace := pre ++
          [Action.logError "Unable to created a SFSpeechURLRecognitionRequest object"] } := by
  simp [startUrl, hurl, henv]

/-- With no input node on the (possibly lazily created) engine, the
microphone branch returns false leaving the task and request as handed
in. -/
theorem startMic_noinput (env : Env) (st : ModState) (sess : Session)
    (pre : List Action)
    (hin : (st.audioEngine.getD (lazyEngine env)).hasInputNode = false) :
    (startMic env st sess pre).map
        (fun r => (r.ret, r.state.recognitionTask, r.state.request)) =
      Except.ok (false, st.recognitionTask, st.request) := by
  rcases heng : st.audioEngine with _ | e <;>
    simp only [heng, Option.getD_none, Option.getD_some, lazyEngine] at hin <;>
    simp [startMic, heng, hin, lazyEngine, Except.map]

/-- With a url argument present and a successful request allocation, the
url branch returns true and ends up holding the recognizer that was held
before, or a default-constructed one when none was held. -/
theorem startUrl_ok_recognizer (env : Env) (st : ModState) (sess : Session)
    (args : Args) (pre : List Action) (u : String)
    (hurl : args.url = some u) (henv : env.urlRequestOk = true) :
    (startUrl env st sess args pre).map
        (fun r => (r.ret, r.state.speechRecognizer)) =
      Except.ok (true, some (st.speechRecognizer.getD { localeId := none })) := by
  rcases hsr : st.speechRecognizer with _ | recog <;>
    simp [startUrl, hurl, henv, hsr, initRecognizer, Except.map]

/-- C6 counterexample: a microphone-mode startRecognition call whose
engine fails to start returns false yet leaves the freshly created task,
the freshly created request and the freshly installed tap live, so the
session is not idle after this synchronous failure. -/
theorem c6_counterexample :
    (startRecognition envStartFail stIdleInit argsMicT).map
        (fun r => (r.ret, r.state.recognitionTask, r.state.request,
          r.state.audioEngine.map (fun e => e.tapInstalled))) =
      Except.ok (false, some 3, some { rid := 2, reportsIncremental := true },
        some true) := by
  rfl

/-- C6 (amended): startRecognition returns false on every synchronous
failure; after an unhandled type, a failed request construction or a
missing input node no live task or request remains (the teardown already
cleared them), but after a failed engine start the freshly created task
and request and the freshly installed tap remain live. -/
theorem c6_failure_states :
    (∀ env st args, resolveType args ≠ SOURCE_TYPE_URL →
      resolveType args ≠ SOURCE_TYPE_MICROPHONE →
      (startRecognition env st args).map
          (fun r => (r.ret, r.state.recognitionTask, r.state.request)) =
        Except.ok (false, none, none)) ∧
    (∀ env st args u, resolveType args = SOURCE_TYPE_URL → args.url = some u →
      env.urlRequestOk = false →
      (startRecognition env st args).map
          (fun r => (r.ret, r.state.recognitionTask, r.state.request)) =
        Except.ok (false, none, none)) ∧
    (∀ env st args, resolveType args = SOURCE_TYPE_MICROPHONE →
      (st.audioEngine.getD (lazyEngine env)).hasInputNode = false →
      (startRecognition env st args).map
          (fun r => (r.ret, r.state.recognitionTask, r.state.request)) =
        Except.ok (false, none, none)) ∧
    (∀ env st args r, resolveType args = SOURCE_TYPE_MICROPHONE →
      (st.audioEngine.getD (lazyEngine env)).hasInputNode = true →
      env.engineStartOk = false →
      startRecognition env st args = Except.ok r →
      r.ret = false ∧ r.state.recognitionTask = some (st.nextId + 1) ∧
      r.state.request = some { rid := st.nextId, reportsIncremental := true } ∧
      (∃ e, r.state.audioEngine = some e ∧ e.tapInstalled = true)) := by
  refine ⟨?_, ?_, ?_, ?_⟩
  · intro env st args h1 h2
    rw [startRecognition_other_eq env st args h1 h2]
    simp [Except.map, tearDown]
  · intro env st args u hty hurl henv
    rw [startRecognition_url_eq env st args hty,
      startUrl_fail_eq env (tearDown st) _ args _ u hurl henv]
    simp [Except.map, tearDown]
  · intro env st args hty hin
    rw [startRecognition_mic_eq env st args hty]
    have h := startMic_noinput env (tearDown st)
      { progressCallback := args.progress, instanceId := args.id }
      (warnTrace args ++ cancelTrace st) (by simpa [tearDown] using hin)
    simpa [tearDown] using h
  · intro env st args r hty hin hstart hok
    rw [startRecognition_mic_eq env st args hty] at hok
    obtain ⟨hsess, htr, hfail, hsucc⟩ := startMic_post _ _ _ _ _ hok
    have hin2 : ((tearDown st).audioEngine.getD (lazyEngine env)).hasInputNode = true := by
      simpa [tearDown] using hin
    obtain ⟨hret, hstate⟩ := hsucc hin2
    refine ⟨by rw [hret, hstart], ?_, ?_, ?_⟩
    · simp [hstate, tearDown]
    · simp [hstate, tearDown]
    · rw [hstate]
      exact ⟨_, rfl, rfl⟩

/-- C6 witness: a url-mode startRecognition call with a failing request
allocation returns false with no live task or request. -/
theorem c6_witness :
    (startRecognition envReqFail stUrlLive argsUrlT).map
        (fun r => (r.ret, r.state.recognitionTask, r.state.request)) =
      Except.ok (false, none, none) :=
  c6_failure_states.2.1 envReqFail stUrlLive argsUrlT "audio.mp3" rfl rfl rfl

/-- C10: a microphone-mode startRecognition with no recognizer held (and
an input node present, so the input-node check does not return first)
dereferences the absent recognizer and throws, while a url-mode call with
no recognizer held lazily calls the initialize function with no locale and
proceeds, ending up with a default-constructed recognizer. -/
theorem c10_lazy_recognizer :
    (∀ env st args, resolveType args = SOURCE_TYPE_MICROPHONE →
      st.speechRecognizer = none →
      (st.audioEngine.getD (lazyEngine env)).hasInputNode = true →
      startRecognition env st args = Except.error JsError.typeError) ∧
    (∀ env st args u, resolveType args = SOURCE_TYPE_URL →
      st.speechRecognizer = none → args.url = some u → env.urlRequestOk = true →
      (startRecognition env st args).map
          (fun r => (r.ret, r.state.speechRecognizer)) =
        Except.ok (true, some { localeId := none })) := by
  constructor
  · intro env st args hty hsr hin
    rw [startRecognition_mic_eq env st args hty]
    exact startMic_crash env (tearDown st) _ _ (by simpa [tearDown] using hsr)
      (by simpa [tearDown] using hin)
  · intro env st args u hty hsr hurl henv
    rw [startRecognition_url_eq env st args hty]
    have h := startUrl_ok_recognizer env (tearDown st)
      { progressCallback := args.progress, instanceId := args.id }
      args (warnTrace args ++ cancelTrace st) u hurl henv
    rw [h]
    have hsr2 : (tearDown st).speechRecognizer = none := by simpa [tearDown] using hsr
    rw [hsr2]
    rfl

/-- C10 witness: from the pristine initial state a microphone call throws
and a url call installs the default recognizer. -/
theorem c10_witness :
    startRecognition envAllOk initialState argsMicT =
      Except.error JsError.typeError ∧
    (startRecognition envAllOk initialState argsUrlT).map
        (fun r => (r.ret, r.state.speechRecognizer)) =
      Except.ok (true, some { localeId := none }) :=
  ⟨c10_lazy_recognizer.1 envAllOk initialState argsMicT rfl rfl rfl,
   c10_lazy_recognizer.2 envAllOk initialState argsUrlT "audio.mp3" rfl rfl rfl rfl⟩

end TiSpeech
